import Mathlib

/-!
Verification of the cascading-filter dashboard (`src/app.py`).

The table is embedded shallowly: a pandas DataFrame becomes a list of rows
together with a column-name list; a cell is `Option String`, where `none`
models a missing value (pandas `NaN`) and `some s` a string value.  A pandas
operation that raises `KeyError` on a missing column is modelled by an
`Option`-returning function (`none` = the exception).  Python string helpers
(`str.strip`, `str.upper`, `str.lower`, substring search) are modelled on the
character lists of Lean strings; `\d` is modelled as the ASCII digits, which
is what the data contains.
-/

namespace AccountsExplorer

/-- One table cell: `none` models pandas `NaN`, `some s` a string value. -/
abbrev Cell := Option String

/-- One table row: an association list from column name to cell, in column
order. -/
abbrev Row := List (String × Cell)

/-- A pandas DataFrame: the column names plus the rows. -/
structure DataFrame where
  cols : List String
  rows : List Row

/-- `df[c]` on one row: the first entry with key `c`; `none` when the key is
absent (rows are kept aligned with `cols`, so this only happens for columns
the frame does not have). -/
def getCell : Row → String → Cell
  | [], _ => none
  | (k, v) :: t, c => if k = c then v else getCell t c

/-- `astype(str)` on one cell: pandas renders `NaN` as the string `"nan"`. -/
def cellToStr : Cell → String
  | none => "nan"
  | some s => s

/-- Python `str.lower()` (ASCII data). -/
def pyLower (s : String) : String := String.mk (s.data.map Char.toLower)

/-- Python `str.upper()` (ASCII data). -/
def pyUpper (s : String) : String := String.mk (s.data.map Char.toUpper)

/-- Strip leading and trailing whitespace from a character list. -/
def wsStrip (l : List Char) : List Char :=
  ((l.dropWhile Char.isWhitespace).reverse.dropWhile Char.isWhitespace).reverse

/-- Python `str.strip()`. -/
def pyStrip (s : String) : String := String.mk (wsStrip s.data)

/-- `l₂` starts with `l₁`. -/
def startsWithL : List Char → List Char → Bool
  | _, [] => true
  | [], _ :: _ => false
  | a :: as, b :: bs => a == b && startsWithL as bs

/-- `needle` occurs as a contiguous run inside `hay`. -/
def containsL (hay needle : List Char) : Bool :=
  match hay with
  | [] => needle.isEmpty
  | c :: t => startsWithL (c :: t) needle || containsL t needle

/-- `re.search(re.escape(needle), hay, flags=IGNORECASE)` as used by the
search box (line 158): a literal, case-insensitive substring test. -/
def containsCI (hay needle : String) : Bool :=
  containsL (hay.data.map Char.toLower) (needle.data.map Char.toLower)

/-- The first match of the regex `\d{5}` in a character list: the leftmost
position where five consecutive digits start (line 59). -/
def firstRun5 : List Char → Option (List Char)
  | c1 :: c2 :: c3 :: c4 :: c5 :: rest =>
      if c1.isDigit && c2.isDigit && c3.isDigit && c4.isDigit && c5.isDigit then
        some [c1, c2, c3, c4, c5]
      else
        firstRun5 (c2 :: c3 :: c4 :: c5 :: rest)
  | _ => none

/-- `s.str.extract(r"(\d{5})").fillna("")` on one raw string value: the first
five-digit run, or the empty string when there is none (line 59). -/
def normalizeZip (s : String) : String :=
  ((firstRun5 s.data).map String.mk).getD ""

/-- `sorted(series.unique())`: duplicates removed, then sorted ascending in
the lexicographic string order (Python and Lean both compare code points). -/
def sortedUnique (l : List String) : List String :=
  List.insertionSort (· ≤ ·) l.dedup

/-- `series.dropna()` for a column: the non-null values, in row order. -/
def nonNullValues (rows : List Row) (c : String) : List String :=
  rows.filterMap (fun r => getCell r c)

/-- `df[df[c].isin(sel)]`: keep the rows whose value in column `c` is a
member of `sel`; a `NaN` cell never matches. -/
def isinFilter (rows : List Row) (c : String) (sel : List String) : List Row :=
  rows.filter (fun r =>
    match getCell r c with
    | some w => decide (w ∈ sel)
    | none => false)

/-- The `if choice: subset = subset[subset[c].isin(choice)]` pattern used at
lines 106-107, 114-115 and 148-155: an empty (falsy) selection imposes no
restriction. -/
def condIsin (rows : List Row) (c : String) (sel : List String) : List Row :=
  if sel = [] then rows else isinFilter rows c sel

/-- Line 95: `sorted(df["Customer"].dropna().unique()) if "Customer" in
df.columns else []`. -/
def customers (df : DataFrame) : List String :=
  if "Customer" ∈ df.cols then sortedUnique (nonNullValues df.rows "Customer") else []

/-- Lines 98-102: the SAM candidate list, restricted by the customer choice
when one is set and both columns exist. -/
def sam_vals (df : DataFrame) (customer_choice : List String) : List String :=
  if customer_choice ≠ [] ∧ "Customer" ∈ df.cols ∧ "WSC_SAM" ∈ df.cols then
    sortedUnique (nonNullValues (isinFilter df.rows "Customer" customer_choice) "WSC_SAM")
  else if "WSC_SAM" ∈ df.cols then
    sortedUnique (nonNullValues df.rows "WSC_SAM")
  else []

/-- Lines 105-109: `state_subset`, the frame restricted by the customer and
SAM choices (the SAM step is guarded by column presence, the customer step is
not — it can only run when a customer was chosen). -/
def state_subset_rows (df : DataFrame) (customer_choice sam_choice : List String) :
    List Row :=
  let s1 := condIsin df.rows "Customer" customer_choice
  if "WSC_SAM" ∈ df.cols then condIsin s1 "WSC_SAM" sam_choice else s1

/-- Line 110: `sorted(state_subset["State"].dropna().unique().tolist())`.
`none` models the `KeyError` raised when the indexed column is absent
(line 107 for `Customer`, line 110 for `State`). -/
def state_vals (df : DataFrame) (customer_choice sam_choice : List String) :
    Option (List String) :=
  if customer_choice ≠ [] ∧ "Customer" ∉ df.cols then none
  else if "State" ∈ df.cols then
    some (sortedUnique (nonNullValues (state_subset_rows df customer_choice sam_choice) "State"))
  else none

/-- Lines 113-115: `zip_subset`, the state subset further restricted by the
state choice. -/
def zip_subset_rows (df : DataFrame) (customer_choice sam_choice state_choice : List String) :
    List Row :=
  condIsin (state_subset_rows df customer_choice sam_choice) "State" state_choice

/-- Line 116: `sorted(zip_subset["Zip"].dropna().unique().tolist())`.  `none`
models the `KeyError` raised on a missing `Customer` (line 107), `State`
(line 115) or `Zip` (line 116) column. -/
def zip_vals (df : DataFrame)
    (customer_choice sam_choice state_choice : List String) : Option (List String) :=
  if customer_choice ≠ [] ∧ "Customer" ∉ df.cols then none
  else if state_choice ≠ [] ∧ "State" ∉ df.cols then none
  else if "Zip" ∈ df.cols then
    some (sortedUnique
      (nonNullValues (zip_subset_rows df customer_choice sam_choice state_choice) "Zip"))
  else none

/-- Lines 147-155: the dimension-filtered frame.  Each nonempty choice is
applied with `.isin`; the SAM step is additionally guarded by column
presence; `none` models the `KeyError` on an absent `Customer`, `State` or
`Zip` column with a nonempty choice for it. -/
def filtered (df : DataFrame)
    (customer_choice sam_choice state_choice zip_choice : List String) :
    Option (List Row) :=
  if customer_choice ≠ [] ∧ "Customer" ∉ df.cols then none
  else if state_choice ≠ [] ∧ "State" ∉ df.cols then none
  else if zip_choice ≠ [] ∧ "Zip" ∉ df.cols then none
  else
    let f1 := condIsin df.rows "Customer" customer_choice
    let f2 := if "WSC_SAM" ∈ df.cols then condIsin f1 "WSC_SAM" sam_choice else f1
    let f3 := condIsin f2 "State" state_choice
    some (condIsin f3 "Zip" zip_choice)

/-- Line 158: one row of the search mask — does any column's stringified
value contain the (escaped, hence literal) search text case-insensitively? -/
def search_mask_keep (cols : List String) (text : String) (r : Row) : Bool :=
  cols.any (fun c => containsCI (cellToStr (getCell r c)) text)

/-- Lines 156-159: the free-text search, a no-op on empty (falsy) text. -/
def apply_search (cols : List String) (rows : List Row) (text : String) : List Row :=
  if text = "" then rows else rows.filter (search_mask_keep cols text)

/-- The full row pipeline of lines 147-159: the four dimension filters, then
the search filter. -/
def filtered_and_searched (df : DataFrame)
    (customer_choice sam_choice state_choice zip_choice : List String)
    (text : String) : Option (List Row) :=
  (filtered df customer_choice sam_choice state_choice zip_choice).map
    (fun rs => apply_search df.cols rs text)

/-- The member-of-selection condition of the specification: an empty
selection set imposes no constraint, a nonempty one requires the row's value
for the column to be one of the selected values. -/
def selOK (r : Row) (c : String) (sel : List String) : Prop :=
  sel = [] ∨ ∃ w, getCell r c = some w ∧ w ∈ sel

instance (r : Row) (c : String) (sel : List String) : Decidable (selOK r c sel) := by
  unfold selOK
  cases h : getCell r c with
  | none => exact decidable_of_iff (sel = []) (by simp [h])
  | some w =>
      exact decidable_of_iff (sel = [] ∨ w ∈ sel) (by simp [h])

/-- A concrete normalized frame used for counterexamples and witnesses. -/
def exRow (c s st z : String) : Row :=
  [("Customer", some c), ("WSC_SAM", some s), ("State", some st), ("Zip", some z)]

/-- Two customers, two states. -/
def exDF : DataFrame where
  cols := ["Customer", "WSC_SAM", "State", "Zip"]
  rows := [exRow "Acme" "S1" "WI" "54401", exRow "Beta" "S2" "MN" "55401"]

example : isinFilter exDF.rows "Customer" ["Acme"] = [exRow "Acme" "S1" "WI" "54401"] := by
  decide

example : (filtered exDF ["Acme"] [] [] []).map List.length = some 1 := by decide

example : (filtered exDF ["Acme", "Beta"] [] [] []).map List.length = some 2 := by decide

example : normalizeZip "54401-1" = "54401" := by decide

example : normalizeZip "no digits" = "" := by decide

example : containsCI "Acme Corp" "a.c" = false := by decide

example : containsCI "the a.cme" "a.c" = true := by decide

example : pyUpper (pyStrip "nan") = "NAN" := by decide

/-! ### Basic lemmas about the filter engine -/

theorem mem_isinFilter {rows : List Row} {c : String} {sel : List String} {r : Row} :
    r ∈ isinFilter rows c sel ↔ r ∈ rows ∧ ∃ w, getCell r c = some w ∧ w ∈ sel := by
  unfold isinFilter
  rw [List.mem_filter]
  cases h : getCell r c <;> simp [h]

theorem mem_condIsin {rows : List Row} {c : String} {sel : List String} {r : Row} :
    r ∈ condIsin rows c sel ↔ r ∈ rows ∧ selOK r c sel := by
  unfold condIsin selOK
  by_cases h : sel = [] <;> simp [h, mem_isinFilter]

theorem mem_nonNullValues {rows : List Row} {c : String} {v : String} :
    v ∈ nonNullValues rows c ↔ ∃ r ∈ rows, getCell r c = some v := by
  simp [nonNullValues, List.mem_filterMap]

theorem sortedUnique_sorted (l : List String) :
    List.Sorted (· ≤ ·) (sortedUnique l) :=
  List.sorted_insertionSort _ _

theorem sortedUnique_nodup (l : List String) : (sortedUnique l).Nodup :=
  (List.perm_insertionSort _ _).nodup_iff.mpr l.nodup_dedup

theorem mem_sortedUnique {l : List String} {v : String} :
    v ∈ sortedUnique l ↔ v ∈ l :=
  ((List.perm_insertionSort _ _).mem_iff).trans List.mem_dedup

theorem condIsin_sublist (rows : List Row) (c : String) (sel : List String) :
    List.Sublist (condIsin rows c sel) rows := by
  unfold condIsin isinFilter
  by_cases h : sel = []
  · simp [h]
  · simp only [h, if_neg]
    exact List.filter_sublist rows

theorem mem_state_subset_rows {df : DataFrame} {cc sc : List String} {r : Row}
    (hS : "WSC_SAM" ∈ df.cols) :
    r ∈ state_subset_rows df cc sc ↔
      r ∈ df.rows ∧ selOK r "Customer" cc ∧ selOK r "WSC_SAM" sc := by
  unfold state_subset_rows
  simp [hS, mem_condIsin, and_assoc]

theorem mem_zip_subset_rows {df : DataFrame} {cc sc stc : List String} {r : Row}
    (hS : "WSC_SAM" ∈ df.cols) :
    r ∈ zip_subset_rows df cc sc stc ↔
      r ∈ df.rows ∧ selOK r "Customer" cc ∧ selOK r "WSC_SAM" sc ∧ selOK r "State" stc := by
  unfold zip_subset_rows
  simp [mem_condIsin, mem_state_subset_rows hS, and_assoc]

/-! ### C1: candidate lists -/

/-- **C1.** With the four dimension columns present, each candidate list is
sorted ascending, duplicate free, and contains exactly the non-null values of
its column taken over the rows that satisfy every *upstream* dimension's
current selection (Customer ← nothing, SAM ← Customer, State ← Customer+SAM,
Zip ← Customer+SAM+State), an empty selection imposing no restriction. -/
theorem candidates_sorted_unique_upstream_restricted
    (df : DataFrame) (cc sc stc : List String)
    (hC : "Customer" ∈ df.cols) (hS : "WSC_SAM" ∈ df.cols)
    (hSt : "State" ∈ df.cols) (hZ : "Zip" ∈ df.cols) :
    (List.Sorted (· ≤ ·) (customers df) ∧ (customers df).Nodup ∧
      (∀ v, v ∈ customers df ↔ ∃ r ∈ df.rows, getCell r "Customer" = some v)) ∧
    (List.Sorted (· ≤ ·) (sam_vals df cc) ∧ (sam_vals df cc).Nodup ∧
      (∀ v, v ∈ sam_vals df cc ↔
        ∃ r ∈ df.rows, selOK r "Customer" cc ∧ getCell r "WSC_SAM" = some v)) ∧
    (∃ L, state_vals df cc sc = some L ∧
      List.Sorted (· ≤ ·) L ∧ L.Nodup ∧
      (∀ v, v ∈ L ↔ ∃ r ∈ df.rows,
        selOK r "Customer" cc ∧ selOK r "WSC_SAM" sc ∧ getCell r "State" = some v)) ∧
    (∃ L, zip_vals df cc sc stc = some L ∧
      List.Sorted (· ≤ ·) L ∧ L.Nodup ∧
      (∀ v, v ∈ L ↔ ∃ r ∈ df.rows,
        selOK r "Customer" cc ∧ selOK r "WSC_SAM" sc ∧ selOK r "State" stc ∧
          getCell r "Zip" = some v)) := by
  refine ⟨?_, ?_, ?_, ?_⟩
  · unfold customers
    rw [if_pos hC]
    exact ⟨sortedUnique_sorted _, sortedUnique_nodup _, fun v => by
      rw [mem_sortedUnique, mem_nonNullValues]⟩
  · unfold sam_vals
    by_cases hcc : cc = []
    · subst hcc
      simp only [ne_eq, not_true_eq_false, false_and, if_false, hS, if_pos]
      exact ⟨sortedUnique_sorted _, sortedUnique_nodup _, fun v => by
        rw [mem_sortedUnique, mem_nonNullValues]
        simp [selOK]⟩
    · rw [if_pos ⟨hcc, hC, hS⟩]
      exact ⟨sortedUnique_sorted _, sortedUnique_nodup _, fun v => by
        rw [mem_sortedUnique, mem_nonNullValues]
        constructor
        · rintro ⟨r, hr, hv⟩
          rw [mem_isinFilter] at hr
          exact ⟨r, hr.1, Or.inr hr.2, hv⟩
        · rintro ⟨r, hr, hsel, hv⟩
          rcases hsel with h | h
          · exact absurd h hcc
          · exact ⟨r, mem_isinFilter.mpr ⟨hr, h⟩, hv⟩⟩
  · unfold state_vals
    have hg : ¬ (cc ≠ [] ∧ "Customer" ∉ df.cols) := by simp [hC]
    rw [if_neg hg, if_pos hSt]
    refine ⟨_, rfl, sortedUnique_sorted _, sortedUnique_nodup _, fun v => ?_⟩
    rw [mem_sortedUnique, mem_nonNullValues]
    constructor
    · rintro ⟨r, hr, hv⟩
      rw [mem_state_subset_rows hS] at hr
      exact ⟨r, hr.1, hr.2.1, hr.2.2, hv⟩
    · rintro ⟨r, hr, h1, h2, hv⟩
      exact ⟨r, (mem_state_subset_rows hS).mpr ⟨hr, h1, h2⟩, hv⟩
  · unfold zip_vals
    have hg : ¬ (cc ≠ [] ∧ "Customer" ∉ df.cols) := by simp [hC]
    have hg' : ¬ (stc ≠ [] ∧ "State" ∉ df.cols) := by simp [hSt]
    rw [if_neg hg, if_neg hg', if_pos hZ]
    refine ⟨_, rfl, sortedUnique_sorted _, sortedUnique_nodup _, fun v => ?_⟩
    rw [mem_sortedUnique, mem_nonNullValues]
    constructor
    · rintro ⟨r, hr, hv⟩
      rw [mem_zip_subset_rows hS] at hr
      exact ⟨r, hr.1, hr.2.1, hr.2.2.1, hr.2.2.2, hv⟩
    · rintro ⟨r, hr, h1, h2, h3, hv⟩
      exact ⟨r, (mem_zip_subset_rows hS).mpr ⟨hr, h1, h2, h3⟩, hv⟩

/-- Witness for C1 at the concrete frame `exDF` with choices
`cc = ["Acme"]`, `sc = []`, `stc = []`. -/
theorem candidates_sorted_unique_upstream_restricted_witness :
    ("Customer" ∈ exDF.cols ∧ "WSC_SAM" ∈ exDF.cols ∧
      "State" ∈ exDF.cols ∧ "Zip" ∈ exDF.cols) ∧
    (∃ L, state_vals exDF ["Acme"] [] = some L ∧
      List.Sorted (· ≤ ·) L ∧ L.Nodup ∧
      (∀ v, v ∈ L ↔ ∃ r ∈ exDF.rows,
        selOK r "Customer" ["Acme"] ∧ selOK r "WSC_SAM" [] ∧
          getCell r "State" = some v)) :=
  ⟨⟨by decide, by decide, by decide, by decide⟩,
    (candidates_sorted_unique_upstream_restricted exDF ["Acme"] [] []
      (by decide) (by decide) (by decide) (by decide)).2.2.1⟩

/-! ### C2: the dimension-filtered row set -/

theorem filtered_eq_some {df : DataFrame} {cc sc stc zc : List String}
    (hC : "Customer" ∈ df.cols) (hS : "WSC_SAM" ∈ df.cols)
    (hSt : "State" ∈ df.cols) (hZ : "Zip" ∈ df.cols) :
    filtered df cc sc stc zc =
      some (condIsin (condIsin (condIsin (condIsin df.rows "Customer" cc)
        "WSC_SAM" sc) "State" stc) "Zip" zc) := by
  unfold filtered
  rw [if_neg (by simp [hC]), if_neg (by simp [hSt]), if_neg (by simp [hZ])]
  simp [hS]

/-- **C2.** With the four dimension columns present, `filtered` succeeds and
holds exactly the rows of the frame that satisfy every dimension with a
nonempty selection by membership, the four constraints conjoined; an empty
selection constrains nothing. -/
theorem filtered_is_conjoined_membership_subset
    (df : DataFrame) (cc sc stc zc : List String)
    (hC : "Customer" ∈ df.cols) (hS : "WSC_SAM" ∈ df.cols)
    (hSt : "State" ∈ df.cols) (hZ : "Zip" ∈ df.cols) :
    ∃ l, filtered df cc sc stc zc = some l ∧
      ∀ r, r ∈ l ↔ r ∈ df.rows ∧ selOK r "Customer" cc ∧ selOK r "WSC_SAM" sc ∧
        selOK r "State" stc ∧ selOK r "Zip" zc := by
  refine ⟨_, filtered_eq_some hC hS hSt hZ, fun r => ?_⟩
  simp [mem_condIsin, and_assoc]

/-- Witness for C2 at the concrete frame `exDF`. -/
theorem filtered_is_conjoined_membership_subset_witness :
    ("Customer" ∈ exDF.cols ∧ "WSC_SAM" ∈ exDF.cols ∧
      "State" ∈ exDF.cols ∧ "Zip" ∈ exDF.cols) ∧
    ∃ l, filtered exDF ["Acme"] [] ["WI"] [] = some l ∧
      ∀ r, r ∈ l ↔ r ∈ exDF.rows ∧ selOK r "Customer" ["Acme"] ∧
        selOK r "WSC_SAM" [] ∧ selOK r "State" ["WI"] ∧ selOK r "Zip" [] :=
  ⟨⟨by decide, by decide, by decide, by decide⟩,
    filtered_is_conjoined_membership_subset exDF ["Acme"] [] ["WI"] []
      (by decide) (by decide) (by decide) (by decide)⟩

/-! ### C3: monotonicity in the selection sets -/

/-- **C3, counterexample.**  Growing the Customer selection from `["Acme"]`
to `["Acme", "Beta"]` raises the row count of `filtered` from 1 to 2 on
`exDF`: adding a value to a nonempty selection set loosens the `.isin`
constraint, so the row count is *not* non-increasing as a selection grows. -/
theorem filtered_count_increases_as_selection_grows :
    (filtered exDF ["Acme"] [] [] []).map List.length = some 1 ∧
    (filtered exDF ["Acme", "Beta"] [] [] []).map List.length = some 2 ∧
    ["Acme"] ⊆ ["Acme", "Beta"] ∧ ¬ (2 ≤ 1) := by
  refine ⟨by decide, by decide, by decide, by decide⟩

theorem sublist_filter_mono {l₁ l₂ : List α} {p q : α → Bool}
    (hl : List.Sublist l₁ l₂) (hpq : ∀ a, p a = true → q a = true) :
    List.Sublist (l₁.filter p) (l₂.filter q) :=
  (List.monotone_filter_right l₁ hpq).trans (hl.filter q)

theorem condIsin_mono {rows₁ rows₂ : List Row} {c : String} {sel sel' : List String}
    (hrows : List.Sublist rows₁ rows₂) (hiff : sel = [] ↔ sel' = [])
    (hsub : sel ⊆ sel') :
    List.Sublist (condIsin rows₁ c sel) (condIsin rows₂ c sel') := by
  by_cases hs : sel = []
  · have hs' := hiff.mp hs
    simpa [condIsin, hs, hs'] using hrows
  · have hs' : sel' ≠ [] := fun e => hs (hiff.mpr e)
    unfold condIsin isinFilter
    rw [if_neg hs, if_neg hs']
    refine sublist_filter_mono hrows (fun r hr => ?_)
    cases hcell : getCell r c with
    | none => simp [hcell] at hr
    | some w =>
        simp only [hcell, decide_eq_true_eq] at hr ⊢
        exact hsub hr

/-- **C3, amended.**  With the four dimension columns present, growing any
(or every) dimension's selection set while keeping it nonempty (and keeping
empty selections empty) can only *add* rows: the smaller selection's result
is a sublist of the larger selection's result, so its row count is at most
the larger one's — the opposite direction of the original claim.  Growing a
selection from empty to nonempty is the one move that can remove rows,
because an empty selection means "no constraint". -/
theorem filtered_monotone_nondecreasing_in_selection_growth
    (df : DataFrame) (cc cc' sc sc' stc stc' zc zc' : List String)
    (hC : "Customer" ∈ df.cols) (hS : "WSC_SAM" ∈ df.cols)
    (hSt : "State" ∈ df.cols) (hZ : "Zip" ∈ df.cols)
    (hcc : cc ⊆ cc') (hcce : cc = [] ↔ cc' = [])
    (hsc : sc ⊆ sc') (hsce : sc = [] ↔ sc' = [])
    (hstc : stc ⊆ stc') (hstce : stc = [] ↔ stc' = [])
    (hzc : zc ⊆ zc') (hzce : zc = [] ↔ zc' = []) :
    ∀ l l', filtered df cc sc stc zc = some l →
      filtered df cc' sc' stc' zc' = some l' →
      List.Sublist l l' ∧ l.length ≤ l'.length := by
  intro l l' hl hl'
  rw [filtered_eq_some hC hS hSt hZ] at hl hl'
  cases hl
  cases hl'
  have h : List.Sublist
      (condIsin (condIsin (condIsin (condIsin df.rows "Customer" cc)
        "WSC_SAM" sc) "State" stc) "Zip" zc)
      (condIsin (condIsin (condIsin (condIsin df.rows "Customer" cc')
        "WSC_SAM" sc') "State" stc') "Zip" zc') :=
    condIsin_mono (condIsin_mono (condIsin_mono (condIsin_mono
      (List.Sublist.refl df.rows) hcce hcc) hsce hsc) hstce hstc) hzce hzc
  exact ⟨h, h.length_le⟩

/-- Witness for the amended C3 on `exDF`: growing the Customer selection
from `["Acme"]` to `["Acme", "Beta"]` keeps every old row. -/
theorem filtered_monotone_nondecreasing_in_selection_growth_witness :
    (["Acme"] ⊆ ["Acme", "Beta"]) ∧
    ∀ l l', filtered exDF ["Acme"] [] [] [] = some l →
      filtered exDF ["Acme", "Beta"] [] [] [] = some l' →
      List.Sublist l l' ∧ l.length ≤ l'.length :=
  ⟨by decide,
    filtered_monotone_nondecreasing_in_selection_growth exDF
      ["Acme"] ["Acme", "Beta"] [] [] [] [] [] []
      (by decide) (by decide) (by decide) (by decide)
      (by decide) (by decide) (fun _ h => h) (by decide)
      (fun _ h => h) (by decide) (fun _ h => h) (by decide)⟩

/-! ### C9: filtering preserves row order -/

theorem filtered_sublist {df : DataFrame} {cc sc stc zc : List String} {l : List Row}
    (h : filtered df cc sc stc zc = some l) : List.Sublist l df.rows := by
  unfold filtered at h
  split at h
  · exact absurd h (by simp)
  · split at h
    · exact absurd h (by simp)
    · split at h
      · exact absurd h (by simp)
      · simp only [Option.some.injEq] at h
        subst h
        refine (condIsin_sublist _ _ _).trans ?_
        refine (condIsin_sublist _ _ _).trans ?_
        split
        · exact (condIsin_sublist _ _ _).trans (condIsin_sublist _ _ _)
        · exact condIsin_sublist _ _ _

theorem apply_search_sublist (cols : List String) (rows : List Row) (t : String) :
    List.Sublist (apply_search cols rows t) rows := by
  unfold apply_search
  split
  · exact List.Sublist.refl _
  · exact List.filter_sublist _

/-- **C9.**  The full pipeline (four dimension filters, then the search
filter) returns a sublist of the frame's rows: filtering only removes rows
and never reorders the survivors. -/
theorem filtered_and_searched_preserves_row_order
    (df : DataFrame) (cc sc stc zc : List String) (t : String) :
    ∀ l, filtered_and_searched df cc sc stc zc t = some l →
      List.Sublist l df.rows := by
  intro l h
  unfold filtered_and_searched at h
  cases hf : filtered df cc sc stc zc with
  | none => rw [hf] at h; exact absurd h (by simp)
  | some l₀ =>
      rw [hf] at h
      simp only [Option.map_some', Option.some.injEq] at h
      subst h
      exact (apply_search_sublist _ _ _).trans (filtered_sublist hf)

/-- Witness for C9 at the concrete frame `exDF` with a search text. -/
theorem filtered_and_searched_preserves_row_order_witness :
    filtered_and_searched exDF ["Acme"] [] [] [] "acme" =
      some [exRow "Acme" "S1" "WI" "54401"] ∧
    List.Sublist [exRow "Acme" "S1" "WI" "54401"] exDF.rows :=
  ⟨by decide,
    filtered_and_searched_preserves_row_order exDF ["Acme"] [] [] [] "acme" _
      (by decide)⟩

/-! ### C5: the free-text search -/

theorem startsWithL_iff (need hay : List Char) :
    startsWithL hay need = true ↔ List.IsPrefix need hay := by
  induction need generalizing hay with
  | nil =>
      cases hay with
      | nil => simp [startsWithL]
      | cons a as => simp [startsWithL]
  | cons b bs ih =>
      cases hay with
      | nil => simp [startsWithL, List.prefix_nil]
      | cons a as =>
          rw [show startsWithL (a :: as) (b :: bs) = (a == b && startsWithL as bs)
              from rfl,
            List.cons_prefix_cons, Bool.and_eq_true, beq_iff_eq, ih]
          constructor
          · rintro ⟨h1, h2⟩
            exact ⟨h1.symm, h2⟩
          · rintro ⟨h1, h2⟩
            exact ⟨h1.symm, h2⟩

theorem containsL_iff (hay need : List Char) :
    containsL hay need = true ↔ List.IsInfix need hay := by
  induction hay with
  | nil => simp [containsL, List.infix_nil, List.isEmpty_iff]
  | cons c t ih =>
      rw [containsL, List.infix_cons_iff]
      simp [startsWithL_iff, ih]

/-- The search test is a literal, case-insensitive substring test: the
lower-cased text occurs contiguously in the lower-cased stringified value. -/
theorem containsCI_iff (hay needle : String) :
    containsCI hay needle = true ↔
      List.IsInfix (needle.data.map Char.toLower) (hay.data.map Char.toLower) :=
  containsL_iff _ _

/-- **C5.**  The search step keeps every row when the text is empty; for a
nonempty text it keeps exactly the rows in which some column's stringified
value contains the text as a literal, case-insensitive substring (the text is
regex-escaped in the code, so its metacharacters match literally — the test
is plain substring containment); and in the pipeline the search runs only
after the four dimension filters. -/
theorem search_matches_literal_ci_substring
    (df : DataFrame) (cc sc stc zc : List String) (t : String) :
    (∀ rows, apply_search df.cols rows "" = rows) ∧
    (t ≠ "" → ∀ rows r, r ∈ apply_search df.cols rows t ↔
      r ∈ rows ∧ ∃ c ∈ df.cols,
        List.IsInfix (t.data.map Char.toLower)
          ((cellToStr (getCell r c)).data.map Char.toLower)) ∧
    filtered_and_searched df cc sc stc zc t =
      (filtered df cc sc stc zc).map (fun rs => apply_search df.cols rs t) := by
  refine ⟨fun rows => by simp [apply_search], fun ht rows r => ?_, rfl⟩
  unfold apply_search
  rw [if_neg ht, List.mem_filter]
  unfold search_mask_keep
  simp [containsCI_iff]

/-- Witness for C5: on `exDF`, the text `"a.c"` (with a regex metacharacter)
does not match the row `("Acme", ...)` — the dot is literal, not a
wildcard — while `"acme"` matches it case-insensitively. -/
theorem search_matches_literal_ci_substring_witness :
    (("a.c" : String) ≠ "" ∧
      (exRow "Acme" "S1" "WI" "54401" ∈ apply_search exDF.cols exDF.rows "a.c" ↔
        exRow "Acme" "S1" "WI" "54401" ∈ exDF.rows ∧ ∃ c ∈ exDF.cols,
          List.IsInfix (("a.c" : String).data.map Char.toLower)
            ((cellToStr (getCell (exRow "Acme" "S1" "WI" "54401") c)).data.map
              Char.toLower))) ∧
    apply_search exDF.cols exDF.rows "a.c" = [] ∧
    apply_search exDF.cols exDF.rows "acme" = [exRow "Acme" "S1" "WI" "54401"] :=
  ⟨⟨by decide,
    (search_matches_literal_ci_substring exDF [] [] [] [] "a.c").2.1 (by decide)
      exDF.rows (exRow "Acme" "S1" "WI" "54401")⟩,
    by decide, by decide⟩

/-! ### C6: missing dimension columns -/

/-- A frame with no `State` column (and a frame with no `Zip` column). -/
def dfNoState : DataFrame where
  cols := ["Customer", "WSC_SAM", "Zip"]
  rows := [[("Customer", some "Acme"), ("WSC_SAM", some "S1"), ("Zip", some "54401")]]

/-- A frame with no `Zip` column. -/
def dfNoZip : DataFrame where
  cols := ["Customer", "WSC_SAM", "State"]
  rows := [[("Customer", some "Acme"), ("WSC_SAM", some "S1"), ("State", some "WI")]]

/-- **C6, counterexample.**  When the `State` (resp. `Zip`) column is absent,
line 110 (resp. 116) of `app.py` indexes the missing column unguardedly, so
computing the State (resp. Zip) candidate list raises `KeyError` — modelled
as `none` — instead of yielding the empty candidate list the claim
promises.  Only the `Customer` and `WSC_SAM` dimensions degrade gracefully. -/
theorem state_candidates_error_on_missing_column :
    state_vals dfNoState [] [] = none ∧ state_vals dfNoState [] [] ≠ some [] ∧
    zip_vals dfNoZip [] [] [] = none ∧ zip_vals dfNoZip [] [] [] ≠ some [] := by
  refine ⟨by decide, by decide, by decide, by decide⟩

/-- A frame with none of the four dimension columns. -/
def dfBare : DataFrame where
  cols := ["Name"]
  rows := [[("Name", some "x")]]

/-- **C6, amended.**  A missing `Customer` or `WSC_SAM` column yields an
empty candidate list and a no-op filter step (never an error), but a missing
`State` or `Zip` column makes the State / Zip candidate computation raise
`KeyError` (modelled by `none`) at lines 110 / 116. -/
theorem missing_column_candidates_and_filters
    (df : DataFrame) (cc sc stc zc : List String) :
    ("Customer" ∉ df.cols → customers df = []) ∧
    ("WSC_SAM" ∉ df.cols → sam_vals df cc = [] ∧
      filtered df cc sc stc zc = filtered df cc [] stc zc) ∧
    ("State" ∉ df.cols → state_vals df cc sc = none) ∧
    ("Zip" ∉ df.cols → zip_vals df cc sc stc = none) := by
  refine ⟨fun hC => ?_, fun hS => ⟨?_, ?_⟩, fun hSt => ?_, fun hZ => ?_⟩
  · simp [customers, hC]
  · simp [sam_vals, hS]
  · simp [filtered, hS]
  · unfold state_vals
    split
    · rfl
    · simp [hSt]
  · unfold zip_vals
    split
    · rfl
    · split
      · rfl
      · simp [hZ]

/-- Witness for the amended C6 at `dfBare`, which lacks all four columns. -/
theorem missing_column_candidates_and_filters_witness :
    ("Customer" ∉ dfBare.cols ∧ customers dfBare = []) ∧
    ("WSC_SAM" ∉ dfBare.cols ∧ sam_vals dfBare [] = [] ∧
      filtered dfBare [] ["S1"] [] [] = filtered dfBare [] [] [] []) ∧
    ("State" ∉ dfBare.cols ∧ state_vals dfBare [] ["S1"] = none) ∧
    ("Zip" ∉ dfBare.cols ∧ zip_vals dfBare [] ["S1"] [] = none) :=
  ⟨⟨by decide, (missing_column_candidates_and_filters dfBare [] ["S1"] [] []).1
      (by decide)⟩,
    ⟨by decide, (missing_column_candidates_and_filters dfBare [] ["S1"] [] []).2.1
      (by decide)⟩,
    ⟨by decide, (missing_column_candidates_and_filters dfBare [] ["S1"] [] []).2.2.1
      (by decide)⟩,
    ⟨by decide, (missing_column_candidates_and_filters dfBare [] ["S1"] [] []).2.2.2
      (by decide)⟩⟩

/-! ### C7: geocoding, map layer, table and CSV -/

/-- Lines 174-185, `attach_coords`: pair each filtered row with the
coordinates looked up for its stringified `Zip`.  The resolver parameter
stands for `zip_map.get` plus the `pd.notna(rec["latitude"])` test: it is
built from the external pgeocode reference data, so `none` models a ZIP that
is unknown, empty, or has a NaN latitude. -/
def attach_coords (rows : List Row) (resolve : String → Option (Int × Int)) :
    List (Row × Option (Int × Int)) :=
  rows.map (fun r => (r, resolve (cellToStr (getCell r "Zip"))))

/-- Line 193 / 197: `geo.dropna(subset=["lat","lon"])` — the rows that reach
the map layer. -/
def map_layer (rows : List Row) (resolve : String → Option (Int × Int)) :
    List (Row × Option (Int × Int)) :=
  (attach_coords rows resolve).filter (fun p => p.2.isSome)

/-- Line 193: `has_coords`. -/
def has_coords (rows : List Row) (resolve : String → Option (Int × Int)) : Bool :=
  decide (0 < (map_layer rows resolve).length)

/-- Lines 220-226: the displayed column list — the four dimension columns,
then the selected stakeholder columns present in the frame, then the extra
display columns present in the frame, without repetition. -/
def cols_to_show (dfCols selected : List String) : List String :=
  let base := ["Customer", "WSC_SAM", "State", "Zip"]
  let withStake :=
    selected.foldl (fun a c => if c ∈ dfCols ∧ c ∉ a then a ++ [c] else a) base
  ["City", "Address", "Branch", "Region", "Division"].foldl
    (fun a c => if c ∈ dfCols ∧ c ∉ a then a ++ [c] else a) withStake

/-- `filtered[cols_to_show]` on one row. -/
def projRow (cols : List String) (r : Row) : Row :=
  cols.map (fun c => (c, getCell r c))

/-- Line 227: what one row of `filtered` becomes in `filtered_to_display`. -/
def display_image (dfCols shown : List String) (r : Row) : Row :=
  if ∀ c ∈ shown, c ∈ dfCols then projRow shown r else r

/-- Line 227: `filtered[cols_to_show] if set(cols_to_show).issubset(...)
else filtered`. -/
def filtered_to_display (dfCols : List String) (rows : List Row)
    (shown : List String) : List Row :=
  if ∀ c ∈ shown, c ∈ dfCols then rows.map (projRow shown) else rows

/-- The columns of the displayed table. -/
def display_cols (dfCols shown : List String) : List String :=
  if ∀ c ∈ shown, c ∈ dfCols then shown else dfCols

/-- One CSV field: pandas writes `NaN` as the empty field. -/
def csvCell : Cell → String
  | none => ""
  | some s => s

/-- One CSV data line of `to_csv(index=False)`. -/
def csv_line (cols : List String) (r : Row) : String :=
  String.intercalate "," (cols.map (fun c => csvCell (getCell r c)))

/-- Lines 230-232: the exported CSV, a header line then one line per
displayed row. -/
def csv_lines (cols : List String) (rows : List Row) : List String :=
  String.intercalate "," cols :: rows.map (csv_line cols)

theorem filtered_to_display_eq_map (dfCols : List String) (rows : List Row)
    (shown : List String) :
    filtered_to_display dfCols rows shown = rows.map (display_image dfCols shown) := by
  unfold filtered_to_display display_image
  split
  · rfl
  · exact (List.map_id' rows).symm

/-- **C7.**  A filtered row whose ZIP the resolver cannot resolve is paired
with absent coordinates, hence never reaches the map layer, yet its image is
in the displayed table and its rendered line is in the CSV export; and when
no filtered row resolves, `has_coords` is false, which makes the code show
the "No mappable locations" notice (line 214) instead of a map. -/
theorem unresolvable_zip_off_map_kept_in_table_and_csv
    (rows : List Row) (resolve : String → Option (Int × Int))
    (dfCols selected : List String) (r : Row)
    (hr : r ∈ rows)
    (hz : resolve (cellToStr (getCell r "Zip")) = none) :
    (∀ x, (r, x) ∉ map_layer rows resolve) ∧
    display_image dfCols (cols_to_show dfCols selected) r ∈
      filtered_to_display dfCols rows (cols_to_show dfCols selected) ∧
    csv_line (display_cols dfCols (cols_to_show dfCols selected))
        (display_image dfCols (cols_to_show dfCols selected) r) ∈
      csv_lines (display_cols dfCols (cols_to_show dfCols selected))
        (filtered_to_display dfCols rows (cols_to_show dfCols selected)) ∧
    ((∀ r' ∈ rows, resolve (cellToStr (getCell r' "Zip")) = none) →
      has_coords rows resolve = false) := by
  refine ⟨fun x hx => ?_, ?_, ?_, fun hall => ?_⟩
  · unfold map_layer attach_coords at hx
    rw [List.mem_filter, List.mem_map] at hx
    obtain ⟨⟨r', _, heq⟩, hsome⟩ := hx
    have hx2 : x = resolve (cellToStr (getCell r' "Zip")) := (congrArg Prod.snd heq).symm
    have hr2 : r' = r := congrArg Prod.fst heq
    rw [hx2, hr2, hz] at hsome
    simp at hsome
  · rw [filtered_to_display_eq_map]
    exact List.mem_map.mpr ⟨r, hr, rfl⟩
  · unfold csv_lines
    rw [filtered_to_display_eq_map]
    exact List.mem_cons_of_mem _
      (List.mem_map.mpr ⟨display_image dfCols (cols_to_show dfCols selected) r,
        List.mem_map.mpr ⟨r, hr, rfl⟩, rfl⟩)
  · unfold has_coords
    have h0 : map_layer rows resolve = [] := by
      unfold map_layer
      rw [List.filter_eq_nil_iff]
      rintro ⟨r', x⟩ hp
      unfold attach_coords at hp
      rw [List.mem_map] at hp
      obtain ⟨r'', hr'', heq⟩ := hp
      have hx2 : x = resolve (cellToStr (getCell r'' "Zip")) :=
        (congrArg Prod.snd heq).symm
      rw [hx2, hall r'' hr'']
      simp
    rw [h0]
    decide

/-- Witness for C7: a one-row frame whose ZIP resolves to nothing; the row is
off the map, in the table and the CSV, and the notice shows. -/
theorem unresolvable_zip_off_map_kept_in_table_and_csv_witness :
    (exRow "Acme" "S1" "WI" "54401" ∈ exDF.rows ∧
      (fun _ : String => (none : Option (Int × Int)))
          (cellToStr (getCell (exRow "Acme" "S1" "WI" "54401") "Zip")) = none) ∧
    ((∀ x, (exRow "Acme" "S1" "WI" "54401", x) ∉
        map_layer exDF.rows (fun _ => none)) ∧
      display_image exDF.cols (cols_to_show exDF.cols []) (exRow "Acme" "S1" "WI" "54401") ∈
        filtered_to_display exDF.cols exDF.rows (cols_to_show exDF.cols []) ∧
      csv_line (display_cols exDF.cols (cols_to_show exDF.cols []))
          (display_image exDF.cols (cols_to_show exDF.cols [])
            (exRow "Acme" "S1" "WI" "54401")) ∈
        csv_lines (display_cols exDF.cols (cols_to_show exDF.cols []))
          (filtered_to_display exDF.cols exDF.rows (cols_to_show exDF.cols [])) ∧
      ((∀ r' ∈ exDF.rows,
          (fun _ : String => (none : Option (Int × Int)))
            (cellToStr (getCell r' "Zip")) = none) →
        has_coords exDF.rows (fun _ => none) = false)) :=
  ⟨⟨by decide, rfl⟩,
    unresolvable_zip_off_map_kept_in_table_and_csv exDF.rows (fun _ => none)
      exDF.cols [] (exRow "Acme" "S1" "WI" "54401") (by decide) rfl⟩

/-! ### C8: the reset action and the two caches -/

/-- The per-session and per-process state the reset button touches:
the four widget selections, the search text, the stakeholder checkboxes
(lines 96-142), the `load_data` cache (line 49), the `geocode_zips` cache
(line 166) and the widget-key suffix (line 76). -/
structure AppState where
  customer_choice : List String
  sam_choice : List String
  state_choice : List String
  zip_choice : List String
  search_text : String
  checked_stakeholders : List String
  data_cache : Option DataFrame
  geocode_cache : Option (List (String × Option (Int × Int)))
  widget_suffix : Nat

/-- Lines 81-87: the reset button.  `st.session_state.clear()` plus a fresh
widget-key suffix makes every widget come back with its default value (empty
multiselects, empty text, unchecked checkboxes); `st.cache_data.clear()`
clears every `@st.cache_data` cache in the process — that is *both* the
`load_data` cache and the `geocode_zips` cache, since both functions carry
that decorator. -/
def reset_filters (s : AppState) : AppState where
  customer_choice := []
  sam_choice := []
  state_choice := []
  zip_choice := []
  search_text := ""
  checked_stakeholders := []
  data_cache := none
  geocode_cache := none
  widget_suffix := s.widget_suffix + 1

/-- A state mid-session: selections made, both caches populated. -/
def exState : AppState where
  customer_choice := ["Acme"]
  sam_choice := []
  state_choice := ["WI"]
  zip_choice := []
  search_text := "x"
  checked_stakeholders := ["Email"]
  data_cache := some exDF
  geocode_cache := some [("54401", some (44, -89))]
  widget_suffix := 0

/-- **C8, counterexample.**  Reset invalidates the geocode cache as well:
`st.cache_data.clear()` (line 83) clears every `@st.cache_data` cache, and
`geocode_zips` (line 166) is one of them.  So after a reset of `exState` the
geocode cache is gone, contradicting "the geocode cache is never invalidated
within a process run". -/
theorem reset_also_clears_geocode_cache :
    (reset_filters exState).geocode_cache = none ∧
    exState.geocode_cache ≠ none := ⟨rfl, by decide⟩

/-- **C8, amended.**  The reset action clears all four dimension selections,
the search text and the stakeholder checkboxes to their defaults, and
invalidates *both* process caches — the dataset cache and the geocode
cache — while forcing fresh widget identities. -/
theorem reset_clears_selections_and_both_caches (s : AppState) :
    (reset_filters s).customer_choice = [] ∧
    (reset_filters s).sam_choice = [] ∧
    (reset_filters s).state_choice = [] ∧
    (reset_filters s).zip_choice = [] ∧
    (reset_filters s).search_text = "" ∧
    (reset_filters s).checked_stakeholders = [] ∧
    (reset_filters s).data_cache = none ∧
    (reset_filters s).geocode_cache = none ∧
    (reset_filters s).widget_suffix ≠ s.widget_suffix :=
  ⟨rfl, rfl, rfl, rfl, rfl, rfl, rfl, rfl, Nat.succ_ne_self s.widget_suffix⟩

/-! ### `load_data` (lines 49-68): header strip, State/Zip/Customer
normalization, cell strip -/

/-- `df[c] = v` on one row: replace the value of the first entry with key
`c`, or append the pair when the key is absent. -/
def rowSet : Row → String → Cell → Row
  | [], c, v => [(c, v)]
  | (k, w) :: t, c, v => if k = c then (c, v) :: t else (k, w) :: rowSet t c v

/-- `df.rename(columns={old: nw})` on one row. -/
def renameRow (r : Row) (old nw : String) : Row :=
  r.map (fun kv => (if kv.1 = old then nw else kv.1, kv.2))

/-- Line 52: `df.columns = df.columns.str.strip()`. -/
def stripHeaders (df : DataFrame) : DataFrame where
  cols := df.cols.map pyStrip
  rows := df.rows.map (fun r => r.map (fun kv => (pyStrip kv.1, kv.2)))

/-- Line 54: `astype(str).str.strip().str.upper()` on one State cell. -/
def stateNormCell (c : Cell) : Cell :=
  some (pyUpper (pyStrip (cellToStr c)))

/-- Lines 53-54 on one row, applied when the frame has a `State` column. -/
def stateNormRow (cols : List String) (r : Row) : Row :=
  if "State" ∈ cols then rowSet r "State" (stateNormCell (getCell r "State")) else r

/-- Lines 53-54: normalize the `State` column when it exists. -/
def stateNormStep (df : DataFrame) : DataFrame where
  cols := df.cols
  rows := df.rows.map (stateNormRow df.cols)

/-- The recognized ZIP-like column names of line 56. -/
def zipNames : List String := ["zip", "zipcode", "postal", "postal_code"]

/-- Lines 56-57: the first column whose lower-cased name is ZIP-like, else
the literal `Zip` column, else nothing. -/
def findZipCol (cols : List String) : Option String :=
  match cols.find? (fun c => zipNames.contains (pyLower c)) with
  | some c => some c
  | none => if "Zip" ∈ cols then some "Zip" else none

/-- Line 59 on one cell: `astype(str).str.extract(r"(\d{5})").fillna("")`. -/
def zipNormCell (c : Cell) : Cell :=
  some (normalizeZip (cellToStr c))

/-- Lines 58-60 on one row: extract the ZIP and rename the column. -/
def zipNormRow (zcOpt : Option String) (r : Row) : Row :=
  match zcOpt with
  | some zc => renameRow (rowSet r zc (zipNormCell (getCell r zc))) zc "Zip"
  | none => r

/-- Lines 56-60: resolve the ZIP-like column, normalize it, rename it. -/
def zipStep (df : DataFrame) : DataFrame where
  cols :=
    match findZipCol df.cols with
    | some zc => df.cols.map (fun c => if c = zc then "Zip" else c)
    | none => df.cols
  rows := df.rows.map (zipNormRow (findZipCol df.cols))

/-- Line 64: `re.search(r"customer|account|company", c, flags=re.I)`. -/
def custMatch (c : String) : Bool :=
  containsL (pyLower c).data ("customer" : String).data ||
    containsL (pyLower c).data ("account" : String).data ||
    containsL (pyLower c).data ("company" : String).data

/-- Lines 62-66: the column renamed to `Customer`, when `Customer` is absent
and some column name matches. -/
def customerRename (cols : List String) : Option String :=
  if "Customer" ∈ cols then none else cols.find? custMatch

/-- Lines 62-66 on one row. -/
def customerRow (c0 : Option String) (r : Row) : Row :=
  match c0 with
  | some c => renameRow r c "Customer"
  | none => r

/-- Lines 62-66: rename the first customer/account/company-like column to
`Customer` when no `Customer` column exists. -/
def customerStep (df : DataFrame) : DataFrame where
  cols :=
    match customerRename df.cols with
    | some c => df.cols.map (fun k => if k = c then "Customer" else k)
    | none => df.cols
  rows := df.rows.map (customerRow (customerRename df.cols))

/-- Line 67 on one row: `s.str.strip()` on every (object) cell, `NaN`
preserved. -/
def stripValsRow (r : Row) : Row :=
  r.map (fun kv => (kv.1, kv.2.map pyStrip))

/-- Line 67: strip every text cell. -/
def stripCellsStep (df : DataFrame) : DataFrame where
  cols := df.cols
  rows := df.rows.map stripValsRow

/-- Lines 49-68, `load_data` after `read_excel`: the whole normalization. -/
def load_data (df : DataFrame) : DataFrame :=
  stripCellsStep (customerStep (zipStep (stateNormStep (stripHeaders df))))

/-! ### Row-level lemmas for `load_data` -/

theorem map_eq_self {l : List α} {f : α → α} (h : ∀ a ∈ l, f a = a) :
    l.map f = l := by
  induction l with
  | nil => rfl
  | cons a t ih =>
      rw [List.map_cons, h a (List.mem_cons_self a t),
        ih (fun x hx => h x (List.mem_cons_of_mem a hx))]

theorem getCell_rowSet_self (r : Row) (c : String) (v : Cell) :
    getCell (rowSet r c v) c = v := by
  induction r with
  | nil => simp [rowSet, getCell]
  | cons kv t ih =>
      obtain ⟨k, w⟩ := kv
      by_cases h : k = c
      · simp [rowSet, h, getCell]
      · simp [rowSet, h, getCell, ih]

theorem getCell_rowSet_ne {k c : String} (r : Row) (v : Cell) (h : k ≠ c) :
    getCell (rowSet r c v) k = getCell r k := by
  induction r with
  | nil => simp [rowSet, getCell, Ne.symm h]
  | cons kv t ih =>
      obtain ⟨k0, w⟩ := kv
      by_cases h0 : k0 = c
      · subst h0
        simp [rowSet, getCell, Ne.symm h]
      · simp only [rowSet, if_neg h0, getCell]
        by_cases h1 : k0 = k <;> simp [h1, ih]

theorem getCell_renameRow_ne {k old nw : String} (r : Row)
    (h1 : k ≠ old) (h2 : k ≠ nw) :
    getCell (renameRow r old nw) k = getCell r k := by
  induction r with
  | nil => rfl
  | cons kv t ih =>
      obtain ⟨k0, w⟩ := kv
      simp only [renameRow, List.map_cons] at ih ⊢
      simp only [getCell]
      by_cases h0 : k0 = old
      · subst h0
        simp [Ne.symm h1, Ne.symm h2, ih]
      · simp only [if_neg h0]
        by_cases h3 : k0 = k
        · simp [h3]
        · simp [h3, ih]

theorem getCell_renameRow_target {old nw : String} (r : Row)
    (hnw : ∀ kv ∈ r, kv.1 ≠ nw) :
    getCell (renameRow r old nw) nw = getCell r old := by
  induction r with
  | nil => rfl
  | cons kv t ih =>
      obtain ⟨k0, w⟩ := kv
      have hk0 : k0 ≠ nw := hnw (k0, w) (List.mem_cons_self _ _)
      simp only [renameRow, List.map_cons] at ih ⊢
      simp only [getCell]
      by_cases h0 : k0 = old
      · subst h0
        simp
      · simp only [if_neg h0, if_neg hk0, if_neg (Ne.symm h0)]
        exact ih (fun kv hkv => hnw kv (List.mem_cons_of_mem _ hkv))

theorem renameRow_id (r : Row) (c : String) : renameRow r c c = r := by
  unfold renameRow
  refine map_eq_self (fun kv _ => ?_)
  obtain ⟨k, v⟩ := kv
  by_cases h : k = c <;> simp [h]

theorem getCell_stripValsRow (r : Row) (k : String) :
    getCell (stripValsRow r) k = (getCell r k).map pyStrip := by
  induction r with
  | nil => rfl
  | cons kv t ih =>
      obtain ⟨k0, w⟩ := kv
      simp only [stripValsRow, List.map_cons, getCell] at ih ⊢
      by_cases h : k0 = k <;> simp [h, ih]

theorem rowSet_keys {r : Row} {c : String} (v : Cell) (h : c ∈ r.map Prod.fst) :
    (rowSet r c v).map Prod.fst = r.map Prod.fst := by
  induction r with
  | nil => simp at h
  | cons kv t ih =>
      obtain ⟨k0, w⟩ := kv
      by_cases h0 : k0 = c
      · simp [rowSet, h0]
      · have hc : c ∈ t.map Prod.fst := by
          simp only [List.map_cons, List.mem_cons] at h
          exact h.resolve_left (fun e => h0 e.symm)
        simp [rowSet, h0, ih hc]

theorem stripHeaders_eq_self {df : DataFrame}
    (hclean : ∀ c ∈ df.cols, pyStrip c = c)
    (halign : ∀ r ∈ df.rows, r.map Prod.fst = df.cols) :
    stripHeaders df = df := by
  have h1 : df.cols.map pyStrip = df.cols := map_eq_self hclean
  have h2 : df.rows.map (fun r => r.map (fun kv => (pyStrip kv.1, kv.2))) = df.rows := by
    refine map_eq_self (fun r hr => map_eq_self (fun kv hkv => ?_))
    obtain ⟨k, v⟩ := kv
    have hk : k ∈ df.cols := by
      rw [← halign r hr]
      exact List.mem_map.mpr ⟨(k, v), hkv, rfl⟩
    simp [hclean k hk]
  unfold stripHeaders
  rw [h1, h2]

theorem findZipCol_spec {cols : List String} {zc : String}
    (h : findZipCol cols = some zc) :
    zc ∈ cols ∧ (zipNames.contains (pyLower zc) = true ∨ zc = "Zip") := by
  unfold findZipCol at h
  cases hf : cols.find? (fun c => zipNames.contains (pyLower c)) with
  | some c =>
      rw [hf] at h
      injection h with h
      subst h
      exact ⟨List.mem_of_find?_eq_some hf, Or.inl (by simpa using List.find?_some hf)⟩
  | none =>
      rw [hf] at h
      by_cases hzm : "Zip" ∈ cols
      · rw [if_pos hzm] at h
        injection h with h
        subst h
        exact ⟨hzm, Or.inr rfl⟩
      · rw [if_neg hzm] at h
        exact absurd h (by simp)

theorem findZipCol_ne_state {cols : List String} {zc : String}
    (h : findZipCol cols = some zc) : zc ≠ "State" := by
  rcases (findZipCol_spec h).2 with hm | he
  · rintro rfl
    rw [show pyLower "State" = "state" from rfl] at hm
    exact absurd hm (by decide)
  · rw [he]
    decide

theorem findZipCol_ne_customer {cols : List String} {zc : String}
    (h : findZipCol cols = some zc) : zc ≠ "Customer" := by
  rcases (findZipCol_spec h).2 with hm | he
  · rintro rfl
    rw [show pyLower "Customer" = "customer" from rfl] at hm
    exact absurd hm (by decide)
  · rw [he]
    decide

theorem not_ws_of_digit (c : Char) (h : c.isDigit = true) :
    c.isWhitespace = false := by
  have h1 : ('0' : Char) ≤ c := by
    have := h
    rw [Char.isDigit, Bool.and_eq_true, decide_eq_true_eq, decide_eq_true_eq] at this
    exact this.1
  rw [show c.isWhitespace =
      (c = ' ' || c = '\t' || c = '\r' || c = '\n') from rfl]
  simp only [Bool.or_eq_false_iff, decide_eq_false_iff_not]
  refine ⟨⟨⟨?_, ?_⟩, ?_⟩, ?_⟩ <;> rintro rfl <;> revert h1 <;> decide

theorem firstRun5_spec : ∀ l m, firstRun5 l = some m →
    ∃ a b c d e, m = [a, b, c, d, e] ∧
      a.isDigit = true ∧ b.isDigit = true ∧ c.isDigit = true ∧
      d.isDigit = true ∧ e.isDigit = true := by
  intro l
  induction l with
  | nil => intro m h; exact absurd h (by simp [firstRun5])
  | cons c1 t ih =>
      rcases t with _ | ⟨c2, _ | ⟨c3, _ | ⟨c4, _ | ⟨c5, rest⟩⟩⟩⟩
      · intro m h; exact absurd h (by simp [firstRun5])
      · intro m h; exact absurd h (by simp [firstRun5])
      · intro m h; exact absurd h (by simp [firstRun5])
      · intro m h; exact absurd h (by simp [firstRun5])
      · intro m h
        rw [show firstRun5 (c1 :: c2 :: c3 :: c4 :: c5 :: rest) =
            (if c1.isDigit && c2.isDigit && c3.isDigit && c4.isDigit && c5.isDigit then
              some [c1, c2, c3, c4, c5]
            else firstRun5 (c2 :: c3 :: c4 :: c5 :: rest)) from rfl] at h
        by_cases hd : (c1.isDigit && c2.isDigit && c3.isDigit && c4.isDigit &&
            c5.isDigit) = true
        · rw [if_pos hd] at h
          injection h with h
          subst h
          simp only [Bool.and_eq_true] at hd
          exact ⟨c1, c2, c3, c4, c5, rfl, hd.1.1.1.1, hd.1.1.1.2, hd.1.1.2, hd.1.2, hd.2⟩
        · rw [if_neg hd] at h
          exact ih m h

theorem pyStrip_five_digits (a b c d e : Char)
    (ha : a.isDigit = true) (he : e.isDigit = true) :
    pyStrip (String.mk [a, b, c, d, e]) = String.mk [a, b, c, d, e] := by
  have wa : a.isWhitespace = false := not_ws_of_digit _ ha
  have we : e.isWhitespace = false := not_ws_of_digit _ he
  simp [pyStrip, wsStrip, List.dropWhile_cons, wa, we]

/-- The extracted ZIP is already whitespace-clean, so the final cell strip
of line 67 leaves it unchanged. -/
theorem pyStrip_normalizeZip (s : String) :
    pyStrip (normalizeZip s) = normalizeZip s := by
  unfold normalizeZip
  cases h : firstRun5 s.data with
  | none => simp [pyStrip, wsStrip]
  | some m =>
      obtain ⟨a, b, c, d, e, hm, ha, _, _, _, he⟩ := firstRun5_spec _ _ h
      subst hm
      simpa using pyStrip_five_digits a b c d e ha he

theorem get?_map_eq (f : α → β) (l : List α) (i : Nat) :
    (l.map f).get? i = (l.get? i).map f := by
  induction l generalizing i with
  | nil => cases i <;> rfl
  | cons a t ih => cases i with
      | zero => rfl
      | succ n => exact ih n

theorem customerRename_spec {cols : List String} {c : String}
    (h : customerRename cols = some c) : custMatch c = true := by
  unfold customerRename at h
  split at h
  · exact absurd h (by simp)
  · exact List.find?_some h

theorem zipStep_cols_of_some {df : DataFrame} {zc : String}
    (h : findZipCol df.cols = some zc) :
    (zipStep df).cols = df.cols.map (fun c => if c = zc then "Zip" else c) := by
  unfold zipStep
  rw [h]

theorem customerStep_cols_none {df : DataFrame}
    (h : customerRename df.cols = none) : (customerStep df).cols = df.cols := by
  unfold customerStep
  rw [h]

theorem customerStep_cols_some {df : DataFrame} {c : String}
    (h : customerRename df.cols = some c) :
    (customerStep df).cols = df.cols.map (fun k => if k = c then "Customer" else k) := by
  unfold customerStep
  rw [h]

/-- What one aligned row's `Zip` cell looks like after the last four steps of
`load_data`: the first five-digit run of the stringified raw value of the
resolved ZIP-like column `zc`, or the empty string. -/
theorem loadRow_zip (cols : List String) (zc : String) (r : Row)
    (hkeys : r.map Prod.fst = cols)
    (hzcmem : zc ∈ cols)
    (hzcState : zc ≠ "State")
    (hzcZip : zc ≠ "Zip" → "Zip" ∉ cols)
    (cR : Option String) (hcR : ∀ c0, cR = some c0 → custMatch c0 = true) :
    getCell (stripValsRow (customerRow cR
        (zipNormRow (some zc) (stateNormRow cols r)))) "Zip" =
      some (normalizeZip (cellToStr (getCell r zc))) := by
  have hYkeys : (stateNormRow cols r).map Prod.fst = cols := by
    unfold stateNormRow
    split
    · rw [rowSet_keys _ (by rw [hkeys]; assumption), hkeys]
    · exact hkeys
  have hYzc : getCell (stateNormRow cols r) zc = getCell r zc := by
    unfold stateNormRow
    split
    · exact getCell_rowSet_ne _ _ hzcState
    · rfl
  have hZ : getCell (zipNormRow (some zc) (stateNormRow cols r)) "Zip" =
      zipNormCell (getCell r zc) := by
    rw [show zipNormRow (some zc) (stateNormRow cols r) =
        renameRow (rowSet (stateNormRow cols r) zc
          (zipNormCell (getCell (stateNormRow cols r) zc))) zc "Zip" from rfl]
    by_cases he : zc = "Zip"
    · subst he
      rw [renameRow_id, getCell_rowSet_self, hYzc]
    · have hnip : "Zip" ∉ cols := hzcZip he
      have hkeys2 : (rowSet (stateNormRow cols r) zc
          (zipNormCell (getCell (stateNormRow cols r) zc))).map Prod.fst = cols := by
        rw [rowSet_keys _ (by rw [hYkeys]; exact hzcmem), hYkeys]
      rw [getCell_renameRow_target _ (fun kv hkv => ?_), getCell_rowSet_self, hYzc]
      have hmem : kv.1 ∈ cols := by
        rw [← hkeys2]
        exact List.mem_map.mpr ⟨kv, hkv, rfl⟩
      exact fun he2 => hnip (he2 ▸ hmem)
  have hC : getCell (customerRow cR (zipNormRow (some zc) (stateNormRow cols r))) "Zip" =
      zipNormCell (getCell r zc) := by
    cases hcr : cR with
    | none => simpa [customerRow] using hZ
    | some c0 =>
        have hm := hcR c0 hcr
        have hne1 : ("Zip" : String) ≠ c0 := by
          intro e
          rw [← e] at hm
          exact absurd hm (by decide)
        have hne2 : ("Zip" : String) ≠ "Customer" := by decide
        unfold customerRow
        rw [getCell_renameRow_ne _ hne1 hne2, hZ]
  rw [getCell_stripValsRow, hC]
  simp [zipNormCell, pyStrip_normalizeZip]

/-! ### C4: ZIP normalization during load -/

/-- **C4.**  For a frame with clean headers and aligned rows whose ZIP-like
column resolves to `zc` (and where a literal `Zip` column, if present, is
itself the resolved one — pandas would produce duplicate labels otherwise),
`load_data` yields a frame with a `Zip` column in which every row's value is
the first five-digit run found in the stringified raw value of column `zc`,
or the empty string (never null) — e.g. `"54401-1"` becomes `"54401"`. -/
theorem zip_column_normalized_on_load (df : DataFrame) (zc : String)
    (hclean : ∀ c ∈ df.cols, pyStrip c = c)
    (halign : ∀ r ∈ df.rows, r.map Prod.fst = df.cols)
    (hz : findZipCol df.cols = some zc)
    (hzz : "Zip" ∈ df.cols → zc = "Zip") :
    "Zip" ∈ (load_data df).cols ∧
    (load_data df).rows.length = df.rows.length ∧
    ∀ i r, df.rows.get? i = some r →
      ∃ r2, (load_data df).rows.get? i = some r2 ∧
        getCell r2 "Zip" = some (normalizeZip (cellToStr (getCell r zc))) := by
  have hsh : stripHeaders df = df := stripHeaders_eq_self hclean halign
  have hld : load_data df = stripCellsStep (customerStep (zipStep (stateNormStep df))) := by
    rw [load_data, hsh]
  have hz1 : findZipCol (stateNormStep df).cols = some zc := hz
  have zcmem : zc ∈ df.cols := (findZipCol_spec hz).1
  have hzipmem : "Zip" ∈ (zipStep (stateNormStep df)).cols := by
    rw [zipStep_cols_of_some hz1]
    exact List.mem_map.mpr ⟨zc, zcmem, by rw [if_pos rfl]⟩
  have hrows : (load_data df).rows = df.rows.map (fun r =>
      stripValsRow (customerRow (customerRename (zipStep (stateNormStep df)).cols)
        (zipNormRow (some zc) (stateNormRow df.cols r)))) := by
    rw [hld]
    show (((df.rows.map (stateNormRow df.cols)).map
        (zipNormRow (findZipCol (stateNormStep df).cols))).map
        (customerRow (customerRename (zipStep (stateNormStep df)).cols))).map
        stripValsRow = _
    rw [hz1, List.map_map, List.map_map, List.map_map]
    rfl
  refine ⟨?_, ?_, ?_⟩
  · rw [hld]
    show "Zip" ∈ (customerStep (zipStep (stateNormStep df))).cols
    cases hcr0 : customerRename (zipStep (stateNormStep df)).cols with
    | none =>
        rw [customerStep_cols_none hcr0]
        exact hzipmem
    | some c0 =>
        rw [customerStep_cols_some hcr0]
        have hm := customerRename_spec hcr0
        have hne : ("Zip" : String) ≠ c0 := by
          intro e
          rw [← e] at hm
          exact absurd hm (by decide)
        exact List.mem_map.mpr ⟨"Zip", hzipmem, by rw [if_neg hne]⟩
  · rw [hrows, List.length_map]
  · intro i r hi
    refine ⟨_, by rw [hrows, get?_map_eq, hi]; rfl, ?_⟩
    exact loadRow_zip df.cols zc r (halign r (List.get?_mem hi)) zcmem
      (findZipCol_ne_state hz)
      (fun hne hmem => hne (hzz hmem))
      _ (fun c0 h => customerRename_spec h)

/-- The raw frame of the specification's normalization scenario. -/
def rawDF : DataFrame where
  cols := ["Customer", "State", "Zip"]
  rows :=
    [[("Customer", some "Acme"), ("State", some "wi "), ("Zip", some "54401-1")],
     [("Customer", some "Acme"), ("State", some "WI"), ("Zip", some "54402")],
     [("Customer", some "Beta"), ("State", some "MN"), ("Zip", some "55401")]]

/-- Witness for C4 on the scenario frame: the raw value `"54401-1"` of the
first row becomes `Zip = "54401"`. -/
theorem zip_column_normalized_on_load_witness :
    ((∀ c ∈ rawDF.cols, pyStrip c = c) ∧
      (∀ r ∈ rawDF.rows, r.map Prod.fst = rawDF.cols) ∧
      findZipCol rawDF.cols = some "Zip" ∧
      ("Zip" ∈ rawDF.cols → "Zip" = "Zip")) ∧
    (∃ r2, (load_data rawDF).rows.get? 0 = some r2 ∧
      getCell r2 "Zip" = some (normalizeZip (cellToStr
        (getCell [("Customer", some "Acme"), ("State", some "wi "),
          ("Zip", some "54401-1")] "Zip")))) ∧
    normalizeZip "54401-1" = "54401" :=
  ⟨⟨by decide, by decide, by decide, fun _ => rfl⟩,
    (zip_column_normalized_on_load rawDF "Zip" (by decide) (by decide) (by decide)
        (fun _ => rfl)).2.2 0
      [("Customer", some "Acme"), ("State", some "wi "), ("Zip", some "54401-1")]
      (by decide),
    by decide⟩

theorem zipStep_cols_none {df : DataFrame}
    (h : findZipCol df.cols = none) : (zipStep df).cols = df.cols := by
  unfold zipStep
  rw [h]

theorem state_subset_rows_nil (df : DataFrame) :
    state_subset_rows df [] [] = df.rows := by
  unfold state_subset_rows condIsin
  simp

/-- What one row's `State` cell looks like after the last four steps of
`load_data`: stringified, stripped, upper-cased (then stripped again by the
final cell strip of line 67). -/
theorem loadRow_state (cols : List String) (r : Row)
    (hState : "State" ∈ cols)
    (zcOpt : Option String) (hzc : ∀ zc, zcOpt = some zc → zc ≠ "State")
    (cR : Option String) (hcR : ∀ c0, cR = some c0 → custMatch c0 = true) :
    getCell (stripValsRow (customerRow cR
        (zipNormRow zcOpt (stateNormRow cols r)))) "State" =
      some (pyStrip (pyUpper (pyStrip (cellToStr (getCell r "State"))))) := by
  have hY : getCell (stateNormRow cols r) "State" =
      stateNormCell (getCell r "State") := by
    unfold stateNormRow
    rw [if_pos hState, getCell_rowSet_self]
  have hZ : getCell (zipNormRow zcOpt (stateNormRow cols r)) "State" =
      stateNormCell (getCell r "State") := by
    cases hzo : zcOpt with
    | none => simpa [zipNormRow] using hY
    | some zc =>
        have hne := hzc zc hzo
        rw [show zipNormRow (some zc) (stateNormRow cols r) =
            renameRow (rowSet (stateNormRow cols r) zc
              (zipNormCell (getCell (stateNormRow cols r) zc))) zc "Zip" from rfl]
        rw [getCell_renameRow_ne _ (Ne.symm hne) (by decide),
          getCell_rowSet_ne _ _ (Ne.symm hne), hY]
  have hC : getCell (customerRow cR
      (zipNormRow zcOpt (stateNormRow cols r))) "State" =
      stateNormCell (getCell r "State") := by
    cases hcr : cR with
    | none => simpa [customerRow] using hZ
    | some c0 =>
        have hm := hcR c0 hcr
        have hne1 : ("State" : String) ≠ c0 := by
          intro e
          rw [← e] at hm
          exact absurd hm (by decide)
        have hne2 : ("State" : String) ≠ "Customer" := by decide
        unfold customerRow
        rw [getCell_renameRow_ne _ hne1 hne2, hZ]
  rw [getCell_stripValsRow, hC]
  simp [stateNormCell]

/-! ### C10: missing State values become the string `"NAN"` -/

/-- **C10.**  With clean headers and aligned rows, after `load_data` the
`State` column still exists, every `State` cell is a defined string (never
null) equal to `upper(strip(str(raw)))` (re-stripped by the final cell
strip), a raw `NaN` becomes the literal string `"NAN"` (since `str(NaN)` is
`"nan"`), and when some raw row had a null State, `"NAN"` shows up in the
State candidate list computed with no upstream selections. -/
theorem state_nan_becomes_literal_NAN_on_load (df : DataFrame)
    (hclean : ∀ c ∈ df.cols, pyStrip c = c)
    (halign : ∀ r ∈ df.rows, r.map Prod.fst = df.cols)
    (hSt : "State" ∈ df.cols) :
    "State" ∈ (load_data df).cols ∧
    (∀ i r, df.rows.get? i = some r →
      ∃ r2, (load_data df).rows.get? i = some r2 ∧
        getCell r2 "State" =
          some (pyStrip (pyUpper (pyStrip (cellToStr (getCell r "State"))))) ∧
        (getCell r "State" = none → getCell r2 "State" = some "NAN")) ∧
    ((∃ r ∈ df.rows, getCell r "State" = none) →
      ∀ L, state_vals (load_data df) [] [] = some L → "NAN" ∈ L) := by
  have hsh : stripHeaders df = df := stripHeaders_eq_self hclean halign
  have hld : load_data df = stripCellsStep (customerStep (zipStep (stateNormStep df))) := by
    rw [load_data, hsh]
  have hstz : "State" ∈ (zipStep (stateNormStep df)).cols := by
    cases hzo : findZipCol (stateNormStep df).cols with
    | none =>
        rw [zipStep_cols_none hzo]
        exact hSt
    | some zc =>
        have hne := findZipCol_ne_state hzo
        rw [zipStep_cols_of_some hzo]
        exact List.mem_map.mpr ⟨"State", hSt, by rw [if_neg (Ne.symm hne)]⟩
  have hacols : "State" ∈ (load_data df).cols := by
    rw [hld]
    show "State" ∈ (customerStep (zipStep (stateNormStep df))).cols
    cases hcr0 : customerRename (zipStep (stateNormStep df)).cols with
    | none =>
        rw [customerStep_cols_none hcr0]
        exact hstz
    | some c0 =>
        rw [customerStep_cols_some hcr0]
        have hm := customerRename_spec hcr0
        have hne : ("State" : String) ≠ c0 := by
          intro e
          rw [← e] at hm
          exact absurd hm (by decide)
        exact List.mem_map.mpr ⟨"State", hstz, by rw [if_neg hne]⟩
  have hrows : (load_data df).rows = df.rows.map (fun r =>
      stripValsRow (customerRow (customerRename (zipStep (stateNormStep df)).cols)
        (zipNormRow (findZipCol (stateNormStep df).cols) (stateNormRow df.cols r)))) := by
    rw [hld]
    show (((df.rows.map (stateNormRow df.cols)).map
        (zipNormRow (findZipCol (stateNormStep df).cols))).map
        (customerRow (customerRename (zipStep (stateNormStep df)).cols))).map
        stripValsRow = _
    rw [List.map_map, List.map_map, List.map_map]
    rfl
  have hpart : ∀ i r, df.rows.get? i = some r →
      ∃ r2, (load_data df).rows.get? i = some r2 ∧
        getCell r2 "State" =
          some (pyStrip (pyUpper (pyStrip (cellToStr (getCell r "State"))))) ∧
        (getCell r "State" = none → getCell r2 "State" = some "NAN") := by
    intro i r hi
    have heq := loadRow_state df.cols r hSt
      (findZipCol (stateNormStep df).cols) (fun zc h => findZipCol_ne_state h)
      (customerRename (zipStep (stateNormStep df)).cols)
      (fun c0 h => customerRename_spec h)
    refine ⟨_, by rw [hrows, get?_map_eq, hi]; rfl, heq, fun hnone => ?_⟩
    rw [heq, hnone]
    decide
  refine ⟨hacols, hpart, ?_⟩
  rintro ⟨r, hr, hnone⟩ L hL
  obtain ⟨i, hi⟩ := List.mem_iff_get?.mp hr
  obtain ⟨r2, hi2, _, hnan⟩ := hpart i r hi
  have hnan2 := hnan hnone
  unfold state_vals at hL
  rw [if_neg (by simp), if_pos hacols] at hL
  injection hL with hL
  rw [← hL, mem_sortedUnique, mem_nonNullValues]
  exact ⟨r2, by rw [state_subset_rows_nil]; exact List.get?_mem hi2, hnan2⟩

/-- A raw frame with a null (NaN) State value. -/
def rawDF2 : DataFrame where
  cols := ["Customer", "State", "Zip"]
  rows := [[("Customer", some "Acme"), ("State", none), ("Zip", some "54401")]]

/-- Witness for C10 on `rawDF2`: the null State of the only row becomes the
string `"NAN"`, and `"NAN"` is a member of every successfully computed State
candidate list. -/
theorem state_nan_becomes_literal_NAN_on_load_witness :
    ((∀ c ∈ rawDF2.cols, pyStrip c = c) ∧
      (∀ r ∈ rawDF2.rows, r.map Prod.fst = rawDF2.cols) ∧
      "State" ∈ rawDF2.cols) ∧
    ((∃ r ∈ rawDF2.rows, getCell r "State" = none) →
      ∀ L, state_vals (load_data rawDF2) [] [] = some L → "NAN" ∈ L) ∧
    ((load_data rawDF2).rows.get? 0).map (fun r => getCell r "State") =
      some (some "NAN") :=
  ⟨⟨by decide, by decide, by decide⟩,
    (state_nan_becomes_literal_NAN_on_load rawDF2 (by decide) (by decide)
      (by decide)).2.2,
    by decide⟩

end AccountsExplorer
